import Mathlib

set_option maxHeartbeats 1000000

/-!
Shallow embedding of the tradebox core (rate limiter, exchange gateway retry
loop, strategy consensus engine, reconnecting WebSocket client), translated
from the TypeScript sources:

- RateLimiter            (src/unnamed/part_008, rate-limiter module)
- BybitApi.makeRequest   (src/back/src/api/bybit.ts)
- StrategyManager        (src/back/src/strategies/strategy-manager.ts)
- BybitWebSocket         (src/unnamed/part_011, first document)

Wall-clock time is explicit (`now` parameters); JS numbers used as
millisecond counters are Nat; confidences are exact rationals.
-/

namespace RateLimiter

/-- Window purge, from `waitForHttpSlot` / `waitForWebSocketSlot`:
`this.httpRequests.filter(timestamp => now - timestamp < this.windowMs)`. -/
def purgeOld (windowMs now : Nat) (reqs : List Nat) : List Nat :=
  reqs.filter (fun t => decide (now - t < windowMs))

/-- Value of `Math.min(...this.httpRequests)` on a nonempty list. -/
def oldestRequest : List Nat → Nat
  | [] => 0
  | t :: ts => ts.foldl Nat.min t

/-- Outcome of one pass of the slot-wait body: either the call is granted
(and its timestamp recorded), or the caller must sleep `waitMs` and re-check. -/
inductive SlotStep where
  | granted (reqs : List Nat)
  | blocked (waitMs : Nat)
deriving DecidableEq, Repr

/-- One pass of `waitForHttpSlot` (identical shape for `waitForWebSocketSlot`):
purge old timestamps; if `length >= max`, compute
`waitTime = windowMs - (now - oldestRequest) + 1000` and sleep, then recurse;
otherwise push `now`. The recursion is the re-check loop: each re-check is a
later pass of this step function. -/
def waitForSlotStep (maxRequests windowMs now : Nat) (reqs : List Nat) : SlotStep :=
  if maxRequests ≤ (purgeOld windowMs now reqs).length then
    SlotStep.blocked (windowMs - (now - oldestRequest (purgeOld windowMs now reqs)) + 1000)
  else
    SlotStep.granted (purgeOld windowMs now reqs ++ [now])

/-- Constructor defaults `(200, 50, 60000)` from the RateLimiter source. -/
def maxHttpRequests : Nat := 200

def maxWebsocketRequests : Nat := 50

def windowMs : Nat := 60000

/-- The HTTP channel instance of the slot-wait step. -/
def waitForHttpSlotStep (now : Nat) (httpRequests : List Nat) : SlotStep :=
  waitForSlotStep maxHttpRequests windowMs now httpRequests

/-- The WebSocket channel instance of the slot-wait step. -/
def waitForWebSocketSlotStep (now : Nat) (websocketRequests : List Nat) : SlotStep :=
  waitForSlotStep maxWebsocketRequests windowMs now websocketRequests

/-- Predicate picking out recorded timestamps inside the trailing window
`(T - w, T]` at observation instant `T`. -/
def inWindow (w T a : Nat) : Bool :=
  decide (a ≤ T) && decide (T - a < w)

/-- Trace of calls granted through the slot-wait loop of one channel.
`GrantTrace m w granted reqs` says: starting from the empty request list, the
calls with timestamps `granted` (in order, at non-decreasing wall-clock times)
were each granted by `waitForSlotStep`, leaving internal list `reqs`. -/
inductive GrantTrace (maxRequests windowMs : Nat) : List Nat → List Nat → Prop where
  | nil : GrantTrace maxRequests windowMs [] []
  | grant {granted reqs reqs' : List Nat} {now : Nat}
      (prev : GrantTrace maxRequests windowMs granted reqs)
      (hmono : ∀ t ∈ granted, t ≤ now)
      (hstep : waitForSlotStep maxRequests windowMs now reqs = SlotStep.granted reqs') :
      GrantTrace maxRequests windowMs (granted ++ [now]) reqs'

/-- Initial value of `this.backoffDelay` (1000 ms). -/
def initialBackoffDelay : Nat := 1000

/-- Cap applied in `handleRateLimitError` (30000 ms). -/
def maxBackoffDelay : Nat := 30000

/-- `handleRateLimitError`: sleeps for the current `backoffDelay`, then sets
`backoffDelay = Math.min(backoffDelay * 2, 30000)`. Returns
(sleep duration, new delay). -/
def handleRateLimitError (backoffDelay : Nat) : Nat × Nat :=
  (backoffDelay, min (backoffDelay * 2) maxBackoffDelay)

/-- `resetBackoff`: sets `backoffDelay = 1000` regardless of the old value. -/
def resetBackoff (_backoffDelay : Nat) : Nat := 1000

end RateLimiter

namespace BybitApi

/-- Decides whether the pattern list is a prefix of the character list
(JS `String.prototype.includes` support). -/
def charsBeginWith : List Char → List Char → Bool
  | [], _ => true
  | _ :: _, [] => false
  | p :: ps, c :: cs => (p == c) && charsBeginWith ps cs

/-- Decides whether the pattern occurs as a contiguous run of the list. -/
def charsContain (pat : List Char) : List Char → Bool
  | [] => charsBeginWith pat []
  | c :: cs => charsBeginWith pat (c :: cs) || charsContain pat cs

/-- JS `msg.includes(pat)`. -/
def strIncludes (s pat : String) : Bool :=
  charsContain pat.toList s.toList

/-- Rate-limit classification from `makeRequest`:
`error.message?.includes('Rate limit') || ...('Too many visits') || ...('403') || ...('10006')`. -/
def isRateLimitMessage (msg : String) : Bool :=
  strIncludes msg "Rate limit" || strIncludes msg "Too many visits" ||
    strIncludes msg "403" || strIncludes msg "10006"

/-- Error thrown when the attempt ceiling is exhausted on a rate-limit error. -/
def retryExhaustedMsg : String := "Превышен лимит попыток после ошибки rate limit"

/-- Error thrown after the loop (unreachable when retries ≥ 1). -/
def unexpectedErrorMsg : String := "Неожиданная ошибка в makeRequest"

/-- Observable result of one `makeRequest` run: the outcome, how many times
`requestFunc` was invoked, and how many times `handleRateLimitError` ran. -/
structure RequestRun (α : Type) where
  outcome : Except String α
  attemptsMade : Nat
  backoffEvents : Nat
deriving Repr

/-- Loop body of `makeRequest` (`for attempt = 1..retries`), as recursion on
the remaining iteration fuel; `behavior k` is what the k-th call of
`requestFunc` does. The rate-limiter admission wait and server-time resync at
the top of each iteration only delay; they do not change the outcome. -/
def runAttempts {α : Type} (behavior : Nat → Except String α) (retries : Nat) :
    Nat → Nat → RequestRun α
  | _, 0 => ⟨Except.error unexpectedErrorMsg, 0, 0⟩
  | attempt, fuel + 1 =>
    match behavior attempt with
    | Except.ok v => ⟨Except.ok v, 1, 0⟩
    | Except.error msg =>
      if isRateLimitMessage msg then
        if attempt = retries then ⟨Except.error retryExhaustedMsg, 1, 1⟩
        else
          let rest := runAttempts behavior retries (attempt + 1) fuel
          ⟨rest.outcome, rest.attemptsMade + 1, rest.backoffEvents + 1⟩
      else
        if attempt = retries then ⟨Except.error msg, 1, 0⟩
        else
          let rest := runAttempts behavior retries (attempt + 1) fuel
          ⟨rest.outcome, rest.attemptsMade + 1, rest.backoffEvents⟩

/-- `makeRequest(requestFunc, retries)`; every call site uses the default
`retries = 3`. -/
def makeRequest {α : Type} (behavior : Nat → Except String α) (retries : Nat) :
    RequestRun α :=
  runAttempts behavior retries 1 retries

/-- Configuration error inside `fetchBalance`'s request function. -/
def balanceKeyErrorMsg : String := "API ключ не настроен"

/-- Configuration error inside `createOrder`'s request function. -/
def orderKeyErrorMsg : String := "API ключ не настроен для торговли"

/-- The request function passed by `fetchBalance`: the credentials check runs
inside the function handed to `makeRequest`, i.e. inside the retry loop. -/
def fetchBalanceRequestFunc {α : Type} (apiKey : String)
    (exchangeFetchBalance : Nat → Except String α) : Nat → Except String α :=
  fun attempt =>
    if apiKey = "" then Except.error balanceKeyErrorMsg
    else exchangeFetchBalance attempt

/-- `fetchBalance` = `makeRequest` over its request function. -/
def fetchBalance {α : Type} (apiKey : String)
    (exchangeFetchBalance : Nat → Except String α) : RequestRun α :=
  makeRequest (fetchBalanceRequestFunc apiKey exchangeFetchBalance) 3

/-- The request function passed by `createOrder`. -/
def createOrderRequestFunc {α : Type} (apiKey : String)
    (exchangeCreateOrder : Nat → Except String α) : Nat → Except String α :=
  fun attempt =>
    if apiKey = "" then Except.error orderKeyErrorMsg
    else exchangeCreateOrder attempt

/-- `createOrder` = `makeRequest` over its request function. -/
def createOrder {α : Type} (apiKey : String)
    (exchangeCreateOrder : Nat → Except String α) : RequestRun α :=
  makeRequest (createOrderRequestFunc apiKey exchangeCreateOrder) 3

end BybitApi

namespace StrategyManager

/-- Trading signal values 'BUY' | 'SELL' | 'HOLD'. -/
inductive Signal where
  | BUY
  | SELL
  | HOLD
deriving DecidableEq, Repr

/-- OpenAIPrediction / MLPrediction shape (fields used by the manager).
Numeric fields are exact rationals; `riskLevel` and `timeframe` are strings. -/
structure Prediction where
  signal : Signal
  confidence : ℚ
  stopLoss : Option ℚ
  takeProfit : Option ℚ
  reasoning : String
  riskLevel : String
  timeframe : String
  timestamp : Nat
deriving DecidableEq, Repr

/-- StrategyResult from strategy-manager.ts. -/
structure StrategyResult where
  strategy : String
  prediction : Prediction
  executionTime : Nat
  success : Bool
  error : Option String
deriving DecidableEq, Repr

/-- Vote tally structure of `calculateConsensusStats`. -/
structure ConsensusStats where
  buyCount : Nat
  sellCount : Nat
  holdCount : Nat
  avgConfidence : ℚ
deriving DecidableEq, Repr

/-- Return shape of `calculateConsensus`. -/
structure ConsensusResult where
  signal : Signal
  confidence : ℚ
  reasoning : String
deriving DecidableEq, Repr

/-- CombinedPrediction from strategy-manager.ts. -/
structure CombinedPrediction where
  primaryStrategy : String
  finalSignal : Signal
  confidence : ℚ
  reasoning : String
  strategyResults : List StrategyResult
  consensus : Option ConsensusStats
  timestamp : Nat
deriving DecidableEq, Repr

/-- `getErrorPrediction(message)`: a synthetic HOLD prediction whose reasoning
is the fixed message handed in by the caller. -/
def getErrorPrediction (message : String) (now : Nat) : Prediction :=
  ⟨Signal.HOLD, 0, none, none, message, "HIGH", "1h", now⟩

/-- `executeOpenAIStrategy`: the adapter call either returns a prediction or
throws; on a throw the manager returns a result with the fixed label
`'OpenAI strategy failed'` as the prediction's reasoning and the thrown
message in the separate `error` field. -/
def executeOpenAIStrategy (adapterOutcome : Except String Prediction)
    (elapsed now : Nat) : StrategyResult :=
  match adapterOutcome with
  | Except.ok p => ⟨"openai", p, elapsed, true, none⟩
  | Except.error msg =>
    ⟨"openai", getErrorPrediction "OpenAI strategy failed" now, elapsed, false, some msg⟩

/-- `executeMLStrategy`, same shape with the 'ml' labels. -/
def executeMLStrategy (adapterOutcome : Except String Prediction)
    (elapsed now : Nat) : StrategyResult :=
  match adapterOutcome with
  | Except.ok p => ⟨"ml", p, elapsed, true, none⟩
  | Except.error msg =>
    ⟨"ml", getErrorPrediction "ML strategy failed" now, elapsed, false, some msg⟩

/-- Fallback returned by the catch branch inside
`OpenAITradingStrategy.getPrediction` (openai-strategy source): the error is
swallowed inside the adapter and surfaces as a plain prediction, so the
manager records it as a successful result. -/
def openaiFallbackPrediction (errorMessage timeframe : String) (now : Nat) : Prediction :=
  ⟨Signal.HOLD, 0, none, none, "Ошибка анализа: " ++ errorMessage, "HIGH", timeframe, now⟩

/-- Signals of a result list (`results.map(r => r.prediction.signal)`). -/
def signalsOf (results : List StrategyResult) : List Signal :=
  results.map (fun r => r.prediction.signal)

/-- Confidences of a result list. -/
def confidencesOf (results : List StrategyResult) : List ℚ :=
  results.map (fun r => r.prediction.confidence)

/-- `signals.filter(s => s === 'BUY').length`. -/
def buyCountOf (results : List StrategyResult) : Nat :=
  ((signalsOf results).filter (fun s => s == Signal.BUY)).length

/-- `signals.filter(s => s === 'SELL').length`. -/
def sellCountOf (results : List StrategyResult) : Nat :=
  ((signalsOf results).filter (fun s => s == Signal.SELL)).length

/-- `signals.filter(s => s === 'HOLD').length`. -/
def holdCountOf (results : List StrategyResult) : Nat :=
  ((signalsOf results).filter (fun s => s == Signal.HOLD)).length

/-- Arithmetic mean of the confidences (exact; JS float formatting such as
`toFixed` is abstracted by exact rational rendering throughout). -/
def avgConfidenceOf (results : List StrategyResult) : ℚ :=
  (confidencesOf results).sum / ((confidencesOf results).length : ℚ)

/-- Exact rendering standing in for `confidence.toFixed(2)`. -/
def confidenceToString (q : ℚ) : String := toString q

/-- `calculateConsensus`: majority vote with strict-majority checks, mean
confidence, and a tally string. -/
def calculateConsensus (results : List StrategyResult) : ConsensusResult :=
  let buyCount := buyCountOf results
  let sellCount := sellCountOf results
  let holdCount := holdCountOf results
  let consensusSignal :=
    if sellCount < buyCount ∧ holdCount < buyCount then Signal.BUY
    else if buyCount < sellCount ∧ holdCount < sellCount then Signal.SELL
    else Signal.HOLD
  let avgConfidence := avgConfidenceOf results
  ⟨consensusSignal, avgConfidence,
    "Консенсус: BUY(" ++ toString buyCount ++ ") SELL(" ++ toString sellCount ++
      ") HOLD(" ++ toString holdCount ++ "), avg confidence: " ++
      confidenceToString avgConfidence⟩

/-- `calculateConsensusStats`. -/
def calculateConsensusStats (results : List StrategyResult) : ConsensusStats :=
  ⟨buyCountOf results, sellCountOf results, holdCountOf results, avgConfidenceOf results⟩

/-- Default of `config.strategies.confidenceThreshold` (0.51). -/
def defaultConfidenceThreshold : ℚ := 51 / 100

/-- Suffix appended to the reasoning when the confidence floor fires. -/
def belowThresholdNote (confidence threshold : ℚ) : String :=
  " (Confidence " ++ confidenceToString confidence ++ " below threshold " ++
    confidenceToString threshold ++ ")"

/-- Pre-floor decision of `combinePredictions` over the nonempty successful
results: the primary strategy's own prediction when present, otherwise the
majority-vote consensus. -/
def preFloorDecision (successfulResults : List StrategyResult)
    (primaryStrategy : String) : ConsensusResult :=
  match successfulResults.find? (fun r => r.strategy == primaryStrategy) with
  | some primaryResult =>
    ⟨primaryResult.prediction.signal, primaryResult.prediction.confidence,
      primaryResult.prediction.reasoning⟩
  | none => calculateConsensus successfulResults

/-- `combinePredictions(results, primaryStrategy)` with the configured
threshold and clock explicit. -/
def combinePredictions (results : List StrategyResult) (primaryStrategy : String)
    (confidenceThreshold : ℚ) (now : Nat) : CombinedPrediction :=
  let successfulResults := results.filter (fun r => r.success)
  if successfulResults.length = 0 then
    ⟨primaryStrategy, Signal.HOLD, 0, "Все стратегии вернули ошибки", results, none, now⟩
  else
    let d := preFloorDecision successfulResults primaryStrategy
    ⟨primaryStrategy,
      if d.confidence < confidenceThreshold then Signal.HOLD else d.signal,
      d.confidence,
      if d.confidence < confidenceThreshold then
        d.reasoning ++ belowThresholdNote d.confidence confidenceThreshold
      else d.reasoning,
      results,
      some (calculateConsensusStats successfulResults),
      now⟩

/-- One reduce step of `getMostCommonSignal`:
`(a, b) => counts[a[0]] > counts[b[0]] ? a : b`. -/
def reduceEntry (a b : Signal × Nat) : Signal × Nat :=
  if b.2 < a.2 then a else b

/-- Reduce over the entries of the counts object in its insertion order
BUY, SELL, HOLD, given the count of each signal. -/
def reduceEntries (f : Signal → Nat) : Signal :=
  (reduceEntry (reduceEntry (Signal.BUY, f Signal.BUY) (Signal.SELL, f Signal.SELL))
    (Signal.HOLD, f Signal.HOLD)).1

/-- `getMostCommonSignal(signals)`. -/
def getMostCommonSignal (signals : List Signal) : Signal :=
  reduceEntries (fun s => (signals.filter (fun x => x == s)).length)

/-- Position of a signal in the counts object's fixed iteration order. -/
def signalOrderIndex : Signal → Nat
  | Signal.BUY => 0
  | Signal.SELL => 1
  | Signal.HOLD => 2

end StrategyManager

namespace BybitWebSocket

/-- Mutable reconnection state of the client (the attempt counter). -/
structure WsState where
  reconnectAttempts : Nat
deriving DecidableEq, Repr

/-- `maxReconnectAttempts = 10`. -/
def maxReconnectAttempts : Nat := 10

/-- `reconnectDelay = 5000` (base delay, ms). -/
def reconnectDelay : Nat := 5000

/-- `scheduleReconnect()`: abandon when the counter already reached the
maximum; otherwise increment it and schedule a reconnect after
`reconnectDelay * 2 ^ (reconnectAttempts - 1)` ms. Returns the new state and
the scheduled delay, if any. -/
def scheduleReconnect (s : WsState) : WsState × Option Nat :=
  if maxReconnectAttempts ≤ s.reconnectAttempts then (s, none)
  else
    (⟨s.reconnectAttempts + 1⟩,
      some (reconnectDelay * 2 ^ (s.reconnectAttempts + 1 - 1)))

/-- The 'open' handler: `this.reconnectAttempts = 0`. -/
def onOpen (_s : WsState) : WsState := ⟨0⟩

/-- Delays produced by `n` consecutive `scheduleReconnect` calls with no
intervening successful open. -/
def schedulesFrom : WsState → Nat → List (Option Nat)
  | _, 0 => []
  | s, n + 1 => (scheduleReconnect s).2 :: schedulesFrom (scheduleReconnect s).1 n

/-- Subscription-set mutations observed by the client. -/
inductive SubEvent where
  | sub (topic : String)
  | unsub (topic : String)
deriving DecidableEq, Repr

/-- `this.subscriptions.add(topic)` on a JS Set modelled as an
insertion-ordered duplicate-free list. -/
def subscriptionsAdd (subs : List String) (topic : String) : List String :=
  if topic ∈ subs then subs else subs ++ [topic]

/-- `this.subscriptions.delete(topic)`. -/
def subscriptionsDelete (subs : List String) (topic : String) : List String :=
  subs.filter (fun t => decide (t ≠ topic))

/-- Effect of one subscribe/unsubscribe call on the subscription set; the set
is updated unconditionally, whether or not the socket is currently open. -/
def applyEvent (subs : List String) : SubEvent → List String
  | SubEvent.sub topic => subscriptionsAdd subs topic
  | SubEvent.unsub topic => subscriptionsDelete subs topic

/-- Subscription set after a sequence of subscribe/unsubscribe calls. -/
def applyEvents (subs : List String) (events : List SubEvent) : List String :=
  events.foldl applyEvent subs

/-- Whether `topic` is active after `events`, starting from activity `b`: the
last subscribe/unsubscribe naming the topic wins. -/
def activeTopicFrom (b : Bool) (events : List SubEvent) (topic : String) : Bool :=
  events.foldl
    (fun acc e =>
      match e with
      | SubEvent.sub u => if u = topic then true else acc
      | SubEvent.unsub u => if u = topic then false else acc)
    b

/-- A topic subscribed at some point and not removed afterwards. -/
def activeTopic (events : List SubEvent) (topic : String) : Bool :=
  activeTopicFrom false events topic

/-- `resubscribeAll()`: when the subscription set is nonempty, send a single
batched subscribe message whose `args` is `Array.from(this.subscriptions)`;
otherwise send nothing. -/
def resubscribeArgs (subs : List String) : Option (List String) :=
  if subs.isEmpty then none else some subs

end BybitWebSocket

/-! ## Theorems -/

namespace RateLimiter

/-- Filtering with a predicate that is pointwise (on members) stronger never
keeps more elements. -/
theorem length_filter_le_of_imp {α : Type} {p q : α → Bool} :
    ∀ l : List α, (∀ a ∈ l, p a = true → q a = true) →
      (l.filter p).length ≤ (l.filter q).length := by
  intro l
  induction l with
  | nil => intro _; simp
  | cons a l ih =>
    intro h
    have htail := ih fun x hx hpx => h x (List.mem_cons_of_mem a hx) hpx
    by_cases hp : p a = true
    · have hq := h a (List.mem_cons_self a l) hp
      simp only [List.filter_cons, hp, hq, if_true, List.length_cons]
      omega
    · have hp' : p a = false := by
        cases hpa : p a
        · rfl
        · exact absurd hpa hp
      cases hq : q a <;> simp [List.filter_cons, hp', hq] <;> omega

/-- Purging at a later instant after purging at an earlier one equals purging
only at the later instant. -/
theorem purgeOld_purgeOld_of_le (w now now' : Nat) (h : now ≤ now') (l : List Nat) :
    purgeOld w now' (purgeOld w now l) = purgeOld w now' l := by
  unfold purgeOld
  rw [List.filter_filter]
  refine List.filter_congr ?_
  intro t _
  cases hd : decide (now' - t < w) with
  | false => simp [hd]
  | true =>
    have h1 : now' - t < w := of_decide_eq_true hd
    have h2 : now - t < w := lt_of_le_of_lt (Nat.sub_le_sub_right h t) h1
    simp [hd, h2]

/-- Purging distributes over list append. -/
theorem purgeOld_append (w now : Nat) (l1 l2 : List Nat) :
    purgeOld w now (l1 ++ l2) = purgeOld w now l1 ++ purgeOld w now l2 := by
  unfold purgeOld
  rw [List.filter_append]

/-- Inversion of the granted case of the slot-wait step. -/
theorem waitForSlotStep_granted_iff {m w now : Nat} {reqs reqs' : List Nat} :
    waitForSlotStep m w now reqs = SlotStep.granted reqs' ↔
      (purgeOld w now reqs).length < m ∧ reqs' = purgeOld w now reqs ++ [now] := by
  unfold waitForSlotStep
  by_cases h : m ≤ (purgeOld w now reqs).length
  · rw [if_pos h]
    constructor
    · intro he; exact absurd he (by simp)
    · intro ⟨h1, _⟩; omega
  · rw [if_neg h]
    constructor
    · intro he
      refine ⟨by omega, ?_⟩
      exact (SlotStep.granted.injEq _ _ ▸ congrArg id he : _) ▸ rfl
    · intro ⟨_, he⟩
      rw [he]

/-- The internal request list of a trace, purged at any instant past every
granted call, is exactly the granted calls still inside the window. -/
theorem grantTrace_state_eq {m w : Nat} {granted reqs : List Nat}
    (h : GrantTrace m w granted reqs) :
    ∀ now', (∀ t ∈ granted, t ≤ now') →
      purgeOld w now' reqs = granted.filter (fun a => decide (now' - a < w)) := by
  induction h with
  | nil => intro now' _; simp [purgeOld]
  | @grant granted reqs reqs' now prev hmono hstep ih =>
    intro now' hb
    have hnow : now ≤ now' := hb now (by simp)
    obtain ⟨hlen, rfl⟩ := waitForSlotStep_granted_iff.mp hstep
    have hbg : ∀ t ∈ granted, t ≤ now' := fun t ht => hb t (by simp [ht])
    calc purgeOld w now' (purgeOld w now reqs ++ [now])
        = purgeOld w now' (purgeOld w now reqs) ++ purgeOld w now' [now] :=
          purgeOld_append w now' _ _
      _ = purgeOld w now' reqs ++ purgeOld w now' [now] := by
          rw [purgeOld_purgeOld_of_le w now now' hnow reqs]
      _ = granted.filter (fun a => decide (now' - a < w)) ++ purgeOld w now' [now] := by
          rw [ih now' hbg]
      _ = (granted ++ [now]).filter (fun a => decide (now' - a < w)) := by
          rw [List.filter_append]
          rfl

/-- C1: along every sequence of calls granted through the slot-wait loop of
one channel (HTTP or WebSocket), at every observation instant T the number of
granted calls whose recorded timestamps lie within the trailing window of
width w never exceeds the channel maximum m; and whenever the purged window
is full, the caller is told to sleep windowSize minus (now minus the oldest
recorded timestamp) plus the 1000 ms safety margin before re-checking. -/
theorem sliding_window_admission_bound {m w : Nat} {granted reqs : List Nat}
    (htrace : GrantTrace m w granted reqs) :
    (∀ T, (granted.filter (fun a => inWindow w T a)).length ≤ m) ∧
    (∀ now cur, m ≤ (purgeOld w now cur).length →
      waitForSlotStep m w now cur =
        SlotStep.blocked (w - (now - oldestRequest (purgeOld w now cur)) + 1000)) := by
  constructor
  · induction htrace with
    | nil => intro T; simp
    | @grant granted reqs reqs' now prev hmono hstep ih =>
      intro T
      obtain ⟨hlen, rfl⟩ := waitForSlotStep_granted_iff.mp hstep
      rw [List.filter_append, List.length_append]
      by_cases hT : now ≤ T
      · have hstate := grantTrace_state_eq prev now hmono
        have hle : (granted.filter (fun a => inWindow w T a)).length ≤
            (granted.filter (fun a => decide (now - a < w))).length := by
          refine length_filter_le_of_imp granted ?_
          intro a ha hpa
          have hsplit := (Bool.and_eq_true _ _).mp hpa
          have haT : a ≤ T := of_decide_eq_true hsplit.1
          have haw : T - a < w := of_decide_eq_true hsplit.2
          exact decide_eq_true (lt_of_le_of_lt (Nat.sub_le_sub_right hT a) haw)
        have hcount : (granted.filter (fun a => decide (now - a < w))).length < m := by
          rw [← hstate]; exact hlen
        have hsing : (([now] : List Nat).filter (fun a => inWindow w T a)).length ≤ 1 := by
          cases hpn : inWindow w T now <;> simp [List.filter, hpn]
        omega
      · have hfalse : inWindow w T now = false := by
          unfold inWindow
          have : ¬ (now ≤ T) := hT
          simp [this]
        have hsing : (([now] : List Nat).filter (fun a => inWindow w T a)).length = 0 := by
          simp [List.filter, hfalse]
        rw [hsing]
        have := ih T
        omega
  · intro now cur hfull
    unfold waitForSlotStep
    rw [if_pos hfull]

/-- Witness for C1 at a concrete two-call trace with m = 2, w = 1000. -/
theorem sliding_window_admission_bound_witness :
    (([0, 500] : List Nat).filter (fun a => inWindow 1000 600 a)).length ≤ 2 := by
  have t0 : GrantTrace 2 1000 [] [] := GrantTrace.nil
  have t1 : GrantTrace 2 1000 ([] ++ [0]) [0] :=
    GrantTrace.grant t0 (by intro t ht; simp at ht) (by decide)
  have t1' : GrantTrace 2 1000 [0] [0] := by simpa using t1
  have t2 : GrantTrace 2 1000 ([0] ++ [500]) [0, 500] :=
    GrantTrace.grant t1' (by intro t ht; simp at ht; omega) (by decide)
  have t2' : GrantTrace 2 1000 [0, 500] [0, 500] := by simpa using t2
  exact (sliding_window_admission_bound t2').1 600

/-- C2 counterexample: at the initial 1000 ms delay, `handleRateLimitError`
suspends the caller for 1000 ms while the post-call (doubled) delay is
2000 ms, so the suspension is not for the doubled duration the claim
describes. -/
theorem backoff_suspension_not_doubled_delay :
    (handleRateLimitError initialBackoffDelay).1 = 1000 ∧
    (handleRateLimitError initialBackoffDelay).2 = 2000 ∧
    (handleRateLimitError initialBackoffDelay).1 ≠
      (handleRateLimitError initialBackoffDelay).2 := by
  decide

/-- C2 (amended): each call to `handleRateLimitError` suspends the caller for
the current delay and then doubles the shared delay, capped at 30 seconds;
from any reachable delay (at most the cap) the delay is non-decreasing across
consecutive failures, and `resetBackoff` returns it to the 1-second floor. -/
theorem backoff_sleep_then_double (d d0 : Nat) (h : d ≤ maxBackoffDelay) :
    (handleRateLimitError d).1 = d ∧
    (handleRateLimitError d).2 = min (d * 2) maxBackoffDelay ∧
    d ≤ (handleRateLimitError d).2 ∧
    (handleRateLimitError d).2 ≤ maxBackoffDelay ∧
    resetBackoff d0 = initialBackoffDelay := by
  unfold handleRateLimitError resetBackoff initialBackoffDelay maxBackoffDelay at *
  refine ⟨rfl, rfl, ?_, ?_, rfl⟩ <;> omega

/-- Witness for C2 at the initial delay. -/
theorem backoff_sleep_then_double_witness :
    (handleRateLimitError 1000).1 = 1000 ∧
    (handleRateLimitError 1000).2 = min (1000 * 2) maxBackoffDelay ∧
    1000 ≤ (handleRateLimitError 1000).2 ∧
    (handleRateLimitError 1000).2 ≤ maxBackoffDelay ∧
    resetBackoff 30000 = initialBackoffDelay :=
  backoff_sleep_then_double 1000 30000 (by decide)

end RateLimiter

namespace BybitApi

/-- C3 counterexample: with requests that always fail with the non-rate-limit
message 'boom', `makeRequest` invokes the request three times, not at most
twice; and when every attempt fails with the rate-limit message 'Rate limit',
the error finally raised is the fixed exhaustion message, not the last
error. -/
theorem retry_policy_counterexample :
    (makeRequest (fun _ => (Except.error "boom" : Except String Unit)) 3).attemptsMade = 3 ∧
    ¬ (makeRequest (fun _ => (Except.error "boom" : Except String Unit)) 3).attemptsMade ≤ 2 ∧
    (makeRequest (fun _ => (Except.error "Rate limit" : Except String Unit)) 3).outcome =
      Except.error retryExhaustedMsg ∧
    retryExhaustedMsg ≠ "Rate limit" :=
  ⟨by decide, by decide, rfl, by decide⟩

/-- C3 (amended): a run of `makeRequest` whose attempts all fail with
rate-limit-classified messages makes exactly 3 attempts, fires the backoff
handler on each, and raises the fixed exhaustion error; a run whose attempts
all fail with non-rate-limit messages also makes exactly 3 attempts, never
fires the backoff handler, and surfaces the last attempt's error. -/
theorem retry_policy_exhaustion {α : Type} (m : Nat → String) :
    ((∀ k, isRateLimitMessage (m k) = true) →
      makeRequest (fun k => (Except.error (m k) : Except String α)) 3 =
        ⟨Except.error retryExhaustedMsg, 3, 3⟩) ∧
    ((∀ k, isRateLimitMessage (m k) = false) →
      makeRequest (fun k => (Except.error (m k) : Except String α)) 3 =
        ⟨Except.error (m 3), 3, 0⟩) := by
  constructor <;> intro h <;>
    simp [makeRequest, runAttempts, h 1, h 2, h 3]

/-- Witness for C3 on concrete always-failing behaviors. -/
theorem retry_policy_exhaustion_witness :
    makeRequest (fun _ => (Except.error "Rate limit" : Except String Unit)) 3 =
      ⟨Except.error retryExhaustedMsg, 3, 3⟩ ∧
    makeRequest (fun _ => (Except.error "boom" : Except String Unit)) 3 =
      ⟨Except.error "boom", 3, 0⟩ :=
  ⟨(retry_policy_exhaustion (fun _ => "Rate limit")).1 (fun _ => by decide),
    (retry_policy_exhaustion (fun _ => "boom")).2 (fun _ => by decide)⟩

/-- C4 counterexample: with no configured API key, `fetchBalance` makes three
attempts through the retry loop, not exactly one. -/
theorem missing_credentials_counterexample :
    (fetchBalance "" (fun _ => (Except.ok () : Except String Unit))).attemptsMade = 3 ∧
    (fetchBalance "" (fun _ => (Except.ok () : Except String Unit))).attemptsMade ≠ 1 := by
  decide

/-- C4 (amended): the credentials check sits inside the function handed to
`makeRequest`, so with no API key every private call enters the retry loop:
each of fetchBalance and createOrder makes the full 3 attempts, never
triggers the backoff handler (the configuration message is not rate-limit
classified), and finally throws the configuration error to the caller. -/
theorem missing_credentials_full_retry_loop {α : Type}
    (ex1 ex2 : Nat → Except String α) :
    fetchBalance "" ex1 = ⟨Except.error balanceKeyErrorMsg, 3, 0⟩ ∧
    createOrder "" ex2 = ⟨Except.error orderKeyErrorMsg, 3, 0⟩ := by
  have h1 : isRateLimitMessage balanceKeyErrorMsg = false := by decide
  have h2 : isRateLimitMessage orderKeyErrorMsg = false := by decide
  constructor <;>
    simp [fetchBalance, createOrder, fetchBalanceRequestFunc, createOrderRequestFunc,
      makeRequest, runAttempts, h1, h2]

end BybitApi

namespace StrategyManager

/-- C5 counterexample: when the OpenAI adapter invocation throws 'boom', the
recorded StrategyResult carries the fixed label 'OpenAI strategy failed' as
the prediction's rationale — not the error message, which lands in the
separate `error` field. -/
theorem adapter_failure_rationale_counterexample :
    (executeOpenAIStrategy (Except.error "boom") 5 100).success = false ∧
    (executeOpenAIStrategy (Except.error "boom") 5 100).prediction.reasoning =
      "OpenAI strategy failed" ∧
    "OpenAI strategy failed" ≠ "boom" ∧
    (executeOpenAIStrategy (Except.error "boom") 5 100).error = some "boom" := by
  refine ⟨rfl, rfl, by decide, rfl⟩

/-- C5 (amended): an adapter invocation that throws is downgraded, never
propagated: the manager records a StrategyResult with signal HOLD, confidence
0, success false, a fixed strategy-failure label as the prediction's
rationale, and the error message in the separate error field (errors the
OpenAI adapter catches internally surface instead as a successful HOLD
prediction whose rationale embeds the message); and the round always
completes, with the full result list — failures included — merged into the
returned CombinedPrediction. -/
theorem adapter_failure_isolation (msg : String) (elapsed now : Nat)
    (results : List StrategyResult) (primary : String) (threshold : ℚ) (ts : Nat) :
    executeOpenAIStrategy (Except.error msg) elapsed now =
      ⟨"openai", getErrorPrediction "OpenAI strategy failed" now, elapsed, false, some msg⟩ ∧
    executeMLStrategy (Except.error msg) elapsed now =
      ⟨"ml", getErrorPrediction "ML strategy failed" now, elapsed, false, some msg⟩ ∧
    (getErrorPrediction "OpenAI strategy failed" now).signal = Signal.HOLD ∧
    (getErrorPrediction "OpenAI strategy failed" now).confidence = 0 ∧
    (openaiFallbackPrediction msg "1h" now).signal = Signal.HOLD ∧
    (openaiFallbackPrediction msg "1h" now).confidence = 0 ∧
    (combinePredictions results primary threshold ts).strategyResults = results := by
  refine ⟨rfl, rfl, rfl, rfl, rfl, rfl, ?_⟩
  unfold combinePredictions
  by_cases h : (results.filter (fun r => r.success)).length = 0 <;> simp [h]

/-- Counts, sum and length are invariant under permutation of the results. -/
theorem counts_perm {l l' : List StrategyResult} (h : l.Perm l') :
    buyCountOf l = buyCountOf l' ∧ sellCountOf l = sellCountOf l' ∧
    holdCountOf l = holdCountOf l' ∧ avgConfidenceOf l = avgConfidenceOf l' := by
  have hsig : (signalsOf l).Perm (signalsOf l') := h.map _
  have hconf : (confidencesOf l).Perm (confidencesOf l') := h.map _
  refine ⟨?_, ?_, ?_, ?_⟩
  · exact (hsig.filter _).length_eq
  · exact (hsig.filter _).length_eq
  · exact (hsig.filter _).length_eq
  · unfold avgConfidenceOf
    rw [hconf.sum_eq, hconf.length_eq]

/-- C6: the consensus merge is invariant under permutation of the opinion
list: both `calculateConsensus` (signal, mean confidence, tally string) and
`calculateConsensusStats` (vote counts and average confidence) return the
same value on any reordering, under exact arithmetic. -/
theorem consensus_permutation_invariant {l l' : List StrategyResult}
    (h : l.Perm l') :
    calculateConsensus l = calculateConsensus l' ∧
    calculateConsensusStats l = calculateConsensusStats l' := by
  obtain ⟨hb, hs, hh, ha⟩ := counts_perm h
  constructor
  · unfold calculateConsensus
    rw [hb, hs, hh, ha]
  · unfold calculateConsensusStats
    rw [hb, hs, hh, ha]

/-- Witness for C6 on a two-element swap. -/
theorem consensus_permutation_invariant_witness :
    calculateConsensus
        [⟨"openai", ⟨Signal.BUY, 9 / 10, none, none, "a", "LOW", "1h", 0⟩, 1, true, none⟩,
          ⟨"ml", ⟨Signal.SELL, 3 / 5, none, none, "b", "LOW", "1h", 0⟩, 1, true, none⟩] =
      calculateConsensus
        [⟨"ml", ⟨Signal.SELL, 3 / 5, none, none, "b", "LOW", "1h", 0⟩, 1, true, none⟩,
          ⟨"openai", ⟨Signal.BUY, 9 / 10, none, none, "a", "LOW", "1h", 0⟩, 1, true, none⟩] ∧
    calculateConsensusStats
        [⟨"openai", ⟨Signal.BUY, 9 / 10, none, none, "a", "LOW", "1h", 0⟩, 1, true, none⟩,
          ⟨"ml", ⟨Signal.SELL, 3 / 5, none, none, "b", "LOW", "1h", 0⟩, 1, true, none⟩] =
      calculateConsensusStats
        [⟨"ml", ⟨Signal.SELL, 3 / 5, none, none, "b", "LOW", "1h", 0⟩, 1, true, none⟩,
          ⟨"openai", ⟨Signal.BUY, 9 / 10, none, none, "a", "LOW", "1h", 0⟩, 1, true, none⟩] :=
  consensus_permutation_invariant (List.Perm.swap _ _ _)

/-- C7: whenever at least one result succeeded and the merged (pre-floor)
confidence is strictly below the threshold, the final signal is forced to
HOLD regardless of the pre-floor signal, the explanatory note is appended as
a suffix to the pre-floor rationale, and the reported confidence itself is
unchanged. -/
theorem confidence_floor_forces_hold (results : List StrategyResult)
    (primary : String) (threshold : ℚ) (now : Nat)
    (hne : (results.filter (fun r => r.success)).length ≠ 0)
    (hlow : (preFloorDecision (results.filter (fun r => r.success)) primary).confidence <
      threshold) :
    (combinePredictions results primary threshold now).finalSignal = Signal.HOLD ∧
    (combinePredictions results primary threshold now).reasoning =
      (preFloorDecision (results.filter (fun r => r.success)) primary).reasoning ++
        belowThresholdNote
          (preFloorDecision (results.filter (fun r => r.success)) primary).confidence
          threshold ∧
    (combinePredictions results primary threshold now).confidence =
      (preFloorDecision (results.filter (fun r => r.success)) primary).confidence := by
  unfold combinePredictions
  rw [if_neg hne]
  simp only [if_pos hlow]
  refine ⟨?_, ?_, ?_⟩ <;> trivial

/-- Witness for C7: one successful BUY opinion at confidence 0 under a
threshold of 1. -/
theorem confidence_floor_forces_hold_witness :
    (combinePredictions
          [⟨"openai", ⟨Signal.BUY, 0, none, none, "r", "LOW", "1h", 0⟩, 1, true, none⟩]
          "openai" 1 0).finalSignal = Signal.HOLD ∧
    (combinePredictions
          [⟨"openai", ⟨Signal.BUY, 0, none, none, "r", "LOW", "1h", 0⟩, 1, true, none⟩]
          "openai" 1 0).reasoning =
      (preFloorDecision
            (List.filter (fun r => r.success)
              [⟨"openai", ⟨Signal.BUY, 0, none, none, "r", "LOW", "1h", 0⟩, 1, true, none⟩])
            "openai").reasoning ++
        belowThresholdNote
          (preFloorDecision
                (List.filter (fun r => r.success)
                  [⟨"openai", ⟨Signal.BUY, 0, none, none, "r", "LOW", "1h", 0⟩, 1, true, none⟩])
                "openai").confidence
          1 ∧
    (combinePredictions
          [⟨"openai", ⟨Signal.BUY, 0, none, none, "r", "LOW", "1h", 0⟩, 1, true, none⟩]
          "openai" 1 0).confidence =
      (preFloorDecision
            (List.filter (fun r => r.success)
              [⟨"openai", ⟨Signal.BUY, 0, none, none, "r", "LOW", "1h", 0⟩, 1, true, none⟩])
            "openai").confidence :=
  confidence_floor_forces_hold
    [⟨"openai", ⟨Signal.BUY, 0, none, none, "r", "LOW", "1h", 0⟩, 1, true, none⟩]
    "openai" 1 0 (by decide) (by norm_num [preFloorDecision, List.filter, List.find?])

/-- The reduce over the counts object picks a signal of maximum count,
breaking ties toward the later entry in the order BUY, SELL, HOLD. -/
theorem reduceEntries_spec (f : Signal → Nat) :
    (∀ s, f s ≤ f (reduceEntries f)) ∧
    (∀ s, f s = f (reduceEntries f) →
      signalOrderIndex s ≤ signalOrderIndex (reduceEntries f)) := by
  by_cases h1 : f Signal.SELL < f Signal.BUY
  · by_cases h2 : f Signal.HOLD < f Signal.BUY
    · have hred : reduceEntries f = Signal.BUY := by
        simp [reduceEntries, reduceEntry, h1, h2]
      rw [hred]
      refine ⟨fun s => ?_, fun s hs => ?_⟩ <;> cases s <;>
        (try simp only [signalOrderIndex]) <;> omega
    · have hred : reduceEntries f = Signal.HOLD := by
        simp [reduceEntries, reduceEntry, h1, h2]
      rw [hred]
      refine ⟨fun s => ?_, fun s hs => ?_⟩ <;> cases s <;>
        (try simp only [signalOrderIndex]) <;> omega
  · by_cases h3 : f Signal.HOLD < f Signal.SELL
    · have hred : reduceEntries f = Signal.SELL := by
        simp [reduceEntries, reduceEntry, h1, h3]
      rw [hred]
      refine ⟨fun s => ?_, fun s hs => ?_⟩ <;> cases s <;>
        (try simp only [signalOrderIndex]) <;> omega
    · have hred : reduceEntries f = Signal.HOLD := by
        simp [reduceEntries, reduceEntry, h1, h3]
      rw [hred]
      refine ⟨fun s => ?_, fun s hs => ?_⟩ <;> cases s <;>
        (try simp only [signalOrderIndex]) <;> omega

/-- C10: `getMostCommonSignal` returns a signal whose count is maximal, and
among the signals attaining that maximal count it returns the last one in the
fixed iteration order BUY, SELL, HOLD; in particular a strict maximum is
returned as-is, a BUY-SELL tie yields SELL, and a three-way tie yields
HOLD. -/
theorem most_common_signal_tie_break (signals : List Signal) :
    (∀ s, (signals.filter (fun x => x == s)).length ≤
      (signals.filter (fun x => x == getMostCommonSignal signals)).length) ∧
    (∀ s, (signals.filter (fun x => x == s)).length =
        (signals.filter (fun x => x == getMostCommonSignal signals)).length →
      signalOrderIndex s ≤ signalOrderIndex (getMostCommonSignal signals)) :=
  reduceEntries_spec (fun s => (signals.filter (fun x => x == s)).length)

/-- Witness for C10: on the BUY-SELL tie the winner is SELL, so BUY's equal
count puts it no later than the winner in the iteration order. -/
theorem most_common_signal_tie_break_witness :
    signalOrderIndex Signal.BUY ≤
      signalOrderIndex (getMostCommonSignal [Signal.BUY, Signal.SELL]) :=
  (most_common_signal_tie_break [Signal.BUY, Signal.SELL]).2 Signal.BUY (by decide)

end StrategyManager

namespace BybitWebSocket

/-- C8: the reconnect attempt counter resets to zero on every successful
open, each scheduled reconnect increments it and waits
`reconnectDelay * 2 ^ (attempts - 1)` (so the k-th consecutive schedule after
a reset waits `reconnectDelay * 2 ^ (k - 1)`), and once the counter has
reached `maxReconnectAttempts`, any number of further `scheduleReconnect`
calls schedule nothing and leave the state unchanged. -/
theorem reconnect_backoff_policy :
    (∀ s, (onOpen s).reconnectAttempts = 0) ∧
    (∀ k, k < maxReconnectAttempts →
      scheduleReconnect ⟨k⟩ = (⟨k + 1⟩, some (reconnectDelay * 2 ^ k))) ∧
    (∀ s n, maxReconnectAttempts ≤ s.reconnectAttempts →
      schedulesFrom s n = List.replicate n none) := by
  refine ⟨fun s => rfl, fun k hk => ?_, fun s n hs => ?_⟩
  · have hcond : ¬ (maxReconnectAttempts ≤ (WsState.mk k).reconnectAttempts) := by
      simpa using Nat.not_le.mpr hk
    unfold scheduleReconnect
    rw [if_neg hcond]
    simp
  · induction n with
    | zero => rfl
    | succ n ih =>
      have hstop : scheduleReconnect s = (s, none) := by
        unfold scheduleReconnect
        rw [if_pos hs]
      unfold schedulesFrom
      rw [hstop]
      simp [ih, List.replicate_succ]

/-- Witness for C8: the first schedule after a reset waits the base delay,
and from a saturated counter two further calls schedule nothing. -/
theorem reconnect_backoff_policy_witness :
    scheduleReconnect ⟨0⟩ = (⟨1⟩, some (reconnectDelay * 2 ^ 0)) ∧
    schedulesFrom ⟨maxReconnectAttempts⟩ 2 = List.replicate 2 none :=
  ⟨reconnect_backoff_policy.2.1 0 (by decide),
    reconnect_backoff_policy.2.2 ⟨maxReconnectAttempts⟩ 2 (by decide)⟩

/-- Membership in the set after `subscriptions.add`. -/
theorem mem_subscriptionsAdd {subs : List String} {u t : String} :
    t ∈ subscriptionsAdd subs u ↔ (t ∈ subs ∨ t = u) := by
  unfold subscriptionsAdd
  by_cases h : u ∈ subs
  · rw [if_pos h]
    constructor
    · exact Or.inl
    · rintro (ht | rfl)
      · exact ht
      · exact h
  · rw [if_neg h]
    simp [List.mem_append]

/-- Membership in the set after `subscriptions.delete`. -/
theorem mem_subscriptionsDelete {subs : List String} {u t : String} :
    t ∈ subscriptionsDelete subs u ↔ (t ∈ subs ∧ t ≠ u) := by
  unfold subscriptionsDelete
  simp [List.mem_filter]

/-- Unfolding of the activity fold over one event. -/
theorem activeTopicFrom_cons (b : Bool) (e : SubEvent) (es : List SubEvent) (t : String) :
    activeTopicFrom b (e :: es) t =
      activeTopicFrom
        (match e with
          | SubEvent.sub u => if u = t then true else b
          | SubEvent.unsub u => if u = t then false else b)
        es t := rfl

/-- The subscription set tracks exactly the last subscribe/unsubscribe per
topic, from any starting set. -/
theorem mem_applyEvents (events : List SubEvent) :
    ∀ (subs : List String) (t : String),
      t ∈ applyEvents subs events ↔
        activeTopicFrom (decide (t ∈ subs)) events t = true := by
  induction events with
  | nil =>
    intro subs t
    simp [applyEvents, activeTopicFrom]
  | cons e es ih =>
    intro subs t
    cases e with
    | sub u =>
      have hstep : applyEvents subs (SubEvent.sub u :: es) =
          applyEvents (subscriptionsAdd subs u) es := rfl
      have hcons : activeTopicFrom (decide (t ∈ subs)) (SubEvent.sub u :: es) t =
          activeTopicFrom (if u = t then true else decide (t ∈ subs)) es t := rfl
      have hb : decide (t ∈ subscriptionsAdd subs u) =
          (if u = t then true else decide (t ∈ subs)) := by
        by_cases hu : u = t
        · subst hu
          simp [mem_subscriptionsAdd]
        · simp [decide_eq_decide, mem_subscriptionsAdd, hu, Ne.symm hu]
      rw [hstep, ih (subscriptionsAdd subs u) t, hcons, hb]
    | unsub u =>
      have hstep : applyEvents subs (SubEvent.unsub u :: es) =
          applyEvents (subscriptionsDelete subs u) es := rfl
      have hcons : activeTopicFrom (decide (t ∈ subs)) (SubEvent.unsub u :: es) t =
          activeTopicFrom (if u = t then false else decide (t ∈ subs)) es t := rfl
      have hb : decide (t ∈ subscriptionsDelete subs u) =
          (if u = t then false else decide (t ∈ subs)) := by
        by_cases hu : u = t
        · subst hu
          simp [mem_subscriptionsDelete]
        · simp [decide_eq_decide, mem_subscriptionsDelete, hu, Ne.symm hu]
      rw [hstep, ih (subscriptionsDelete subs u) t, hcons, hb]

/-- The subscription set never holds duplicates. -/
theorem nodup_applyEvents (events : List SubEvent) :
    ∀ subs : List String, subs.Nodup → (applyEvents subs events).Nodup := by
  induction events with
  | nil => intro subs h; exact h
  | cons e es ih =>
    intro subs h
    refine ih (applyEvent subs e) ?_
    cases e with
    | sub u =>
      show (subscriptionsAdd subs u).Nodup
      unfold subscriptionsAdd
      by_cases hu : u ∈ subs
      · rw [if_pos hu]; exact h
      · rw [if_neg hu]
        simp [List.nodup_append, h, hu]
    | unsub u =>
      show (subscriptionsDelete subs u).Nodup
      exact h.filter _

/-- C9: after any reconnect, the batched resubscribe message carries as its
args exactly the current subscription set: a topic is in that set precisely
when some subscribe for it (possibly issued while disconnected) was not
followed by an unsubscribe; the set is duplicate-free; and the message is
sent exactly when the set is nonempty, containing the whole set. -/
theorem resubscribe_exact_subscription_set (events : List SubEvent) (t : String) :
    (t ∈ applyEvents [] events ↔ activeTopic events t = true) ∧
    (applyEvents [] events).Nodup ∧
    resubscribeArgs (applyEvents [] events) =
      (if (applyEvents [] events).isEmpty then none else some (applyEvents [] events)) := by
  refine ⟨?_, nodup_applyEvents events [] List.nodup_nil, rfl⟩
  have h := mem_applyEvents events [] t
  simpa [activeTopic] using h

end BybitWebSocket
